import Mathlib

/-!
Verification of the run/event ledger of sync-carpediem-shopify.

The repository is a Node/Express integration service; its persistence layer
(src/db.js and the near-duplicate variants in src/unnamed/) offers every
operation in two modes ("durable": Postgres via SQL statements; "fallback":
process-local JavaScript collections), selected once at startup by the
presence of DATABASE_URL.  This file shallowly embeds both modes:

  * the fallback mode's JavaScript collections become Lean lists
    (a JS Map becomes an insertion-ordered association list, a JS Set a
    duplicate-free list, array unshift/push become cons/append, and
    Array.prototype.slice(-n) is modelled verbatim including its n = 0
    corner case);
  * the durable mode's tables become lists of rows and each SQL statement is
    translated by its observable semantics (INSERT appends a row,
    INSERT .. ON CONFLICT (k) DO UPDATE upserts by key, ON CONFLICT DO
    NOTHING inserts only when the key is absent, UPDATE .. WHERE rewrites
    the matching rows, SELECT .. WHERE .. ORDER BY .. LIMIT filters, sorts
    and truncates; ORDER BY is modelled by a stable insertion sort, a
    deterministic refinement of the unspecified tie order);
  * wall-clock reads (new Date(), NOW()) become an explicit timestamp
    argument of type Nat;
  * JSON payloads (the summary and meta fields) become a JSON value type,
    with JavaScript truthiness modelled explicitly because the source
    guards several writes with the `x || {}` / `x || null` idiom.
-/

/-- A JSON-like value: the type of the loosely-typed `summary` and `meta`
payloads stored by the ledger (JSONB columns in durable mode, raw JS values
in fallback mode). -/
inductive JVal where
  | jnull
  | jbool (b : Bool)
  | jnum (n : Int)
  | jstr (s : String)
  | jarr (elems : List JVal)
  | jobj (fields : List (String × JVal))

/-- JavaScript truthiness of a JSON value: null, false, 0 and "" are falsy;
every array and every object (including the empty object) is truthy. -/
def JVal.truthy : JVal → Bool
  | .jnull => false
  | .jbool b => b
  | .jnum n => n != 0
  | .jstr s => s != ""
  | .jarr _ => true
  | .jobj _ => true

/-- The `x || {}` idiom of src/db.js: a falsy payload is replaced by the
empty object. -/
def jsOrEmptyObj (v : JVal) : JVal :=
  if v.truthy then v else .jobj []

/-- The `x || null` idiom on an optional string argument: an absent or
empty-string value becomes null. -/
def jsOrNullStr : Option String → Option String
  | some s => if s = "" then none else some s
  | none => none

/-- The `x || d` idiom on an optional string argument with default `d`. -/
def jsOrDefaultStr (d : String) : Option String → String
  | some s => if s = "" then d else s
  | none => d

/-- JS Map.prototype.set on an insertion-ordered association list: update
the existing entry in place, or append a new one. -/
def assocSet (k : String) (v : α) : List (String × α) → List (String × α)
  | [] => [(k, v)]
  | (k', v') :: rest =>
    if k' = k then (k, v) :: rest else (k', v') :: assocSet k v rest

/-- JS Map.prototype.get: the value of the first (unique) entry for `k`. -/
def assocGet (k : String) (l : List (String × α)) : Option α :=
  (l.find? (fun e => e.1 == k)).map (·.2)

/-- Rewrite the first element satisfying `p` (JS `array.find(..)` followed by
in-place mutation of the found object). -/
def updateFirst (p : α → Bool) (f : α → α) : List α → List α
  | [] => []
  | a :: rest => if p a then f a :: rest else a :: updateFirst p f rest

/-- SQL `UPDATE .. WHERE p`: rewrite every row satisfying `p`. -/
def updateWhere (p : α → Bool) (f : α → α) (l : List α) : List α :=
  l.map (fun a => if p a then f a else a)

/-- JS `array.slice(-n)`: the last `n` elements — except that `slice(-0)`
is `slice(0)`, the whole array. -/
def jsSliceNeg (n : Nat) (xs : List α) : List α :=
  if n = 0 then xs else xs.drop (xs.length - n)

/-- The last `n` elements of a list. -/
def takeLast (n : Nat) (xs : List α) : List α :=
  xs.drop (xs.length - n)

/-- A row of the `runs` table (and equally a run object of the fallback
store): id, tenant key, trigger tag, lifecycle status, summary payload,
start time, optional finish time. -/
structure Run where
  id : String
  shop_domain : String
  trigger : String
  status : String
  summary : JVal
  started_at : Nat
  finished_at : Option Nat

/-- A log entry as returned to callers (level, message, meta, creation
time); in fallback mode this is also the stored shape. -/
structure LogEntry where
  level : String
  message : String
  meta : JVal
  created_at : Nat

/-- A row of the `run_logs` table: the owning run id plus the entry data.
The BIGSERIAL primary key is omitted: src/db.js never selects it nor orders
by it. -/
structure PgLog where
  run_id : String
  level : String
  message : String
  meta : JVal
  created_at : Nat

/-- The fallback store of src/db.js: `memory.tokens` (Map), `memory.processed`
(Set), `memory.runs` (array, newest first), `memory.runLogs` (Map from run id
to array of entries). -/
structure MemState where
  tokens : List (String × String)
  processed : List String
  runs : List Run
  runLogs : List (String × List LogEntry)

/-- The durable store of src/db.js: the four tables, each as a list of rows
in insertion order.  `shop_tokens` rows carry their `updated_at` timestamp,
`processed_events` rows their `created_at`. -/
structure PgState where
  shop_tokens : List (String × String × Nat)
  processed_events : List (String × Nat)
  runs : List Run
  run_logs : List PgLog

/-- The empty fallback store (process start). -/
def emptyMem : MemState := ⟨[], [], [], []⟩

/-- The freshly created durable store (all tables empty). -/
def emptyPg : PgState := ⟨[], [], [], []⟩

namespace DbJs

/-! Operations of src/db.js (the primary variant).  Each JS function
branches on `hasDb()`; the fallback branch is embedded as the `..M`
function, the Postgres branch as the `..P` function. -/

/-- Fallback branch of `upsertShopToken`: `memory.tokens.set(shop, tok)`. -/
def upsertShopTokenM (shop tok : String) (st : MemState) : MemState :=
  { st with tokens := assocSet shop tok st.tokens }

/-- Fallback branch of `getShopToken`: `memory.tokens.get(shop) || null`. -/
def getShopTokenM (shop : String) (st : MemState) : Option String :=
  jsOrNullStr (assocGet shop st.tokens)

/-- Durable branch of `upsertShopToken`: INSERT .. ON CONFLICT (shop_domain)
DO UPDATE SET access_token = EXCLUDED.access_token, updated_at = NOW(). -/
def upsertShopTokenP (shop tok : String) (now : Nat) (st : PgState) : PgState :=
  if st.shop_tokens.any (fun r => r.1 == shop) then
    { st with shop_tokens :=
        (updateFirst (fun r => r.1 == shop) (fun _ => (shop, tok, now)) st.shop_tokens) }
  else
    { st with shop_tokens := st.shop_tokens ++ [(shop, tok, now)] }

/-- Durable branch of `getShopToken`: SELECT access_token WHERE shop_domain,
then `rows[0]?.access_token || null`. -/
def getShopTokenP (shop : String) (st : PgState) : Option String :=
  jsOrNullStr ((st.shop_tokens.find? (fun r => r.1 == shop)).map (·.2.1))

/-- Fallback branch of `markProcessed`: `memory.processed.add(id)` (a JS Set
add: appends only when absent). -/
def markProcessedM (id : String) (st : MemState) : MemState :=
  if id ∈ st.processed then st else { st with processed := st.processed ++ [id] }

/-- Fallback branch of `isProcessed`: `memory.processed.has(id)`. -/
def isProcessedM (id : String) (st : MemState) : Bool :=
  decide (id ∈ st.processed)

/-- Durable branch of `markProcessed`: INSERT .. ON CONFLICT DO NOTHING. -/
def markProcessedP (id : String) (now : Nat) (st : PgState) : PgState :=
  if st.processed_events.any (fun r => r.1 == id) then st
  else { st with processed_events := st.processed_events ++ [(id, now)] }

/-- Durable branch of `isProcessed`: SELECT 1 WHERE id, then rowCount > 0. -/
def isProcessedP (id : String) (st : PgState) : Bool :=
  st.processed_events.any (fun r => r.1 == id)

/-- Fallback branch of `createRun`: unshift a fresh run (status "running",
finished_at null) and initialise its log array.  The fresh uuid and the
clock reading are explicit arguments. -/
def createRunM (runId shop trig : String) (summary : JVal) (now : Nat)
    (st : MemState) : MemState :=
  { st with
    runs := ⟨runId, shop, trig, "running", summary, now, none⟩ :: st.runs,
    runLogs := assocSet runId [] st.runLogs }

/-- Durable branch of `createRun`: INSERT INTO runs with status 'running' and
summary `JSON.stringify(summary || {})`. -/
def createRunP (runId shop trig : String) (summary : JVal) (now : Nat)
    (st : PgState) : PgState :=
  { st with runs := st.runs ++ [⟨runId, shop, trig, "running", jsOrEmptyObj summary, now, none⟩] }

/-- Fallback branch of `addRunLog`: `if (!message) return;` then push onto
`memory.runLogs.get(runId) || []`. -/
def addRunLogM (runId level message : String) (meta : JVal) (now : Nat)
    (st : MemState) : MemState :=
  if message = "" then st
  else
    { st with runLogs :=
        (assocSet runId ((assocGet runId st.runLogs).getD [] ++ [⟨level, message, meta, now⟩])
          st.runLogs) }

/-- Durable branch of `addRunLog`: the same `if (!message) return;` guard,
then INSERT INTO run_logs with meta `JSON.stringify(meta || {})`. -/
def addRunLogP (runId level message : String) (meta : JVal) (now : Nat)
    (st : PgState) : PgState :=
  if message = "" then st
  else { st with run_logs := st.run_logs ++ [⟨runId, level, message, jsOrEmptyObj meta, now⟩] }

/-- Fallback branch of `finishRun`: find the run by id; when present, set
status, summary (`summary || {}`) and finished_at; when absent, do nothing. -/
def finishRunM (runId status : String) (summary : JVal) (now : Nat)
    (st : MemState) : MemState :=
  { st with runs :=
      (updateFirst (fun r => r.id == runId)
        (fun r => { r with status := status, summary := jsOrEmptyObj summary,
                           finished_at := some now })
        st.runs) }

/-- Durable branch of `finishRun`: UPDATE runs SET status, summary
(stringified `summary || {}`), finished_at = NOW() WHERE id. -/
def finishRunP (runId status : String) (summary : JVal) (now : Nat)
    (st : PgState) : PgState :=
  { st with runs :=
      (updateWhere (fun r => r.id == runId)
        (fun r => { r with status := status, summary := jsOrEmptyObj summary,
                           finished_at := some now })
        st.runs) }

/-- Fallback branch of `listRuns`: filter `memory.runs` (newest first) by
tenant, take `limit` (the per-row projection keeps every field). -/
def listRunsM (shop : String) (limit : Nat) (st : MemState) : List Run :=
  (st.runs.filter (fun r => r.shop_domain == shop)).take limit

/-- Durable branch of `listRuns`: SELECT .. WHERE shop_domain ORDER BY
started_at DESC LIMIT `limit`. -/
def listRunsP (shop : String) (limit : Nat) (st : PgState) : List Run :=
  (((st.runs.filter (fun r => r.shop_domain == shop)).insertionSort
      (fun a b => b.started_at ≤ a.started_at)).take limit)

/-- Fallback branch of `getRunWithLogs`: the first run with the id (or null)
paired with `(memory.runLogs.get(runId) || []).slice(-logLimit)`. -/
def getRunWithLogsM (runId : String) (logLimit : Nat) (st : MemState) :
    Option Run × List LogEntry :=
  (st.runs.find? (fun r => r.id == runId),
   jsSliceNeg logLimit ((assocGet runId st.runLogs).getD []))

/-- Durable branch of `getRunWithLogs`: the run row (rows[0] or null) paired
with SELECT level, message, meta, created_at FROM run_logs WHERE run_id
ORDER BY created_at ASC LIMIT logLimit. -/
def getRunWithLogsP (runId : String) (logLimit : Nat) (st : PgState) :
    Option Run × List LogEntry :=
  (st.runs.find? (fun r => r.id == runId),
   (((st.run_logs.filter (fun l => l.run_id == runId)).insertionSort
       (fun a b => a.created_at ≤ b.created_at)).take logLimit).map
     (fun l => ⟨l.level, l.message, l.meta, l.created_at⟩))

end DbJs

/-- A row of the `ebay_links` table of the second src/db.js variant: keyed
by (shop, sku); offer id, listing id and last error are nullable. -/
structure EbayLink where
  shop : String
  shopify_product_id : Option String
  shopify_variant_id : Option String
  sku : String
  ebay_offer_id : Option String
  ebay_listing_id : Option String
  status : String
  last_error : Option String

namespace Links

/-- `upsertEbayLink` of src/db.js (lines 307-341): INSERT .. ON CONFLICT
(shop, sku) DO UPDATE.  The bound parameters are `ebayOfferId || null`,
`ebayListingId || null`, `status || "linked"`, `lastError || null`; the
update sets product and variant ids to the excluded values, offer and
listing ids to COALESCE(EXCLUDED, existing), status to COALESCE(EXCLUDED,
existing) — where the excluded status is never null thanks to the
`|| "linked"` default — and last_error to the excluded value. -/
def upsertEbayLink (shop : String) (productId variantId : Option String)
    (sku : String) (offerId listingId statusArg lastError : Option String)
    (links : List EbayLink) : List EbayLink :=
  let vOffer := jsOrNullStr offerId
  let vListing := jsOrNullStr listingId
  let vStatus := jsOrDefaultStr "linked" statusArg
  let vErr := jsOrNullStr lastError
  if links.any (fun l => l.shop == shop && l.sku == sku) then
    updateFirst (fun l => l.shop == shop && l.sku == sku)
      (fun old =>
        { old with
          shopify_product_id := productId,
          shopify_variant_id := variantId,
          ebay_offer_id := match vOffer with | some v => some v | none => old.ebay_offer_id,
          ebay_listing_id := match vListing with | some v => some v | none => old.ebay_listing_id,
          status := vStatus,
          last_error := vErr })
      links
  else links ++ [⟨shop, productId, variantId, sku, vOffer, vListing, vStatus, vErr⟩]

/-- `getEbayLinkBySku`: SELECT * WHERE shop AND sku LIMIT 1, or null. -/
def getEbayLinkBySku (shop sku : String) (links : List EbayLink) : Option EbayLink :=
  links.find? (fun l => l.shop == shop && l.sku == sku)

end Links

namespace Part000

/-! The `finishRun` of src/unnamed/part_000 (lines 169-190), which differs
from src/db.js: the fallback branch stores the summary argument verbatim
(no `|| {}`), and the durable branch sets
`summary = COALESCE($3, summary)` — a null summary preserves the stored
one.  Its state shapes coincide with src/db.js, so the shared `MemState`
and `PgState` are reused. -/

/-- COALESCE($3, summary): a SQL-null (JS null/undefined) argument keeps the
old value. -/
def coalesceJ (new old : JVal) : JVal :=
  match new with
  | .jnull => old
  | v => v

/-- Fallback branch of part_000's `finishRun`: find by id; when present set
status, summary (verbatim) and finished_at; when absent do nothing. -/
def finishRunM (runId status : String) (summary : JVal) (now : Nat)
    (st : MemState) : MemState :=
  { st with runs :=
      (updateFirst (fun r => r.id == runId)
        (fun r => { r with status := status, summary := summary,
                           finished_at := some now })
        st.runs) }

/-- Durable branch of part_000's `finishRun`: UPDATE runs SET status,
summary = COALESCE($3, summary), finished_at = NOW() WHERE id. -/
def finishRunP (runId status : String) (summary : JVal) (now : Nat)
    (st : PgState) : PgState :=
  { st with runs :=
      (updateWhere (fun r => r.id == runId)
        (fun r => { r with status := status, summary := coalesceJ summary r.summary,
                           finished_at := some now })
        st.runs) }

end Part000

namespace Part001

/-! The run bookkeeping of src/unnamed/part_001: runs are keyed by a numeric
id (`Date.now()` in fallback mode, BIGSERIAL in durable mode) and its
fallback `listRuns` (line 204) returns `memory.runs.slice(0, limit)` with no
tenant filter, unlike its own durable branch. -/

/-- A `sync_runs` row / fallback run object of part_001. -/
structure Run001 where
  id : Nat
  shop_domain : String
  job_type : String
  status : String
  started_at : Nat

/-- The fallback run list of part_001 (newest first). -/
structure MemState001 where
  runs : List Run001

/-- The empty fallback store of part_001. -/
def emptyMem001 : MemState001 := ⟨[]⟩

/-- Fallback branch of part_001's `createRun`: unshift a running run with
id `Date.now()`. -/
def createRunM (id : Nat) (shop jobType : String) (now : Nat)
    (st : MemState001) : MemState001 :=
  ⟨⟨id, shop, jobType, "running", now⟩ :: st.runs⟩

/-- Fallback branch of part_001's `listRuns`:
`memory.runs.slice(0, limit)` — the tenant argument is ignored. -/
def listRunsM (_shop : String) (limit : Nat) (st : MemState001) : List Run001 :=
  st.runs.take limit

/-- Durable branch of part_001's `listRuns`: SELECT * WHERE shop_domain
ORDER BY started_at DESC LIMIT `limit`. -/
def listRunsP (shop : String) (limit : Nat) (runs : List Run001) : List Run001 :=
  ((runs.filter (fun r => r.shop_domain == shop)).insertionSort
      (fun a b => b.started_at ≤ a.started_at)).take limit

end Part001

namespace Startup

/-! Startup control flow of src/app.js.  The file contains two variants:
the main startup IIFE (lines 484-496) wraps `await initDb()` in
try/catch — a failed initialisation is logged and `app.listen` runs
anyway — while the second variant (lines 698-706) chains
`initDb().then(listen).catch(e => process.exit(1))`.  `initDb` only throws
when DATABASE_URL is configured (otherwise it returns after choosing the
fallback), so an `Except.error` input models a configured-but-failing
durable backend. -/

/-- What the process does after `initDb` settles. -/
inductive StartOutcome where
  | listens
  | exits
deriving DecidableEq

/-- The startup IIFE of src/app.js: `try { await initDb(); } catch (e)
{ console.error(..); }` followed unconditionally by `app.listen`. -/
def startupMainVariant (initResult : Except String Unit) : StartOutcome :=
  match initResult with
  | .ok _ => .listens
  | .error _ => .listens

/-- The chained startup of the second variant:
`initDb().then(() => app.listen(..)).catch(e => process.exit(1))`. -/
def startupChainedVariant (initResult : Except String Unit) : StartOutcome :=
  match initResult with
  | .ok _ => .listens
  | .error _ => .exits

end Startup

/-! ### Helper lemmas -/

theorem find?_updateFirst (p : α → Bool) (f : α → α) (hf : ∀ a, p (f a) = p a)
    (l : List α) :
    List.find? p (updateFirst p f l) = (List.find? p l).map f := by
  induction l with
  | nil => rfl
  | cons a rest ih =>
    cases h : p a with
    | true => simp [updateFirst, h, List.find?_cons, hf a]
    | false => simp [updateFirst, h, List.find?_cons, ih]

theorem find?_updateWhere (p : α → Bool) (f : α → α) (hf : ∀ a, p (f a) = p a)
    (l : List α) :
    List.find? p (updateWhere p f l) = (List.find? p l).map f := by
  induction l with
  | nil => rfl
  | cons a rest ih =>
    cases h : p a with
    | true => simp [updateWhere, h, List.find?_cons, hf a]
    | false => simpa [updateWhere, h, List.find?_cons] using ih

theorem updateFirst_eq_self (p : α → Bool) (f : α → α) (l : List α)
    (h : ∀ a ∈ l, p a = false) : updateFirst p f l = l := by
  induction l with
  | nil => rfl
  | cons a rest ih =>
    have ha : p a = false := h a (by simp)
    simp [updateFirst, ha, ih fun b hb => h b (by simp [hb])]

theorem updateWhere_eq_self (p : α → Bool) (f : α → α) (l : List α)
    (h : ∀ a ∈ l, p a = false) : updateWhere p f l = l := by
  induction l with
  | nil => rfl
  | cons a rest ih =>
    have ha : p a = false := h a (by simp)
    have hr := ih fun b hb => h b (by simp [hb])
    simp only [updateWhere, List.map_cons] at hr ⊢
    simp [ha, hr]

theorem assocGet_assocSet_self (k : String) (v : α) (l : List (String × α)) :
    assocGet k (assocSet k v l) = some v := by
  induction l with
  | nil => simp [assocSet, assocGet]
  | cons e rest ih =>
    by_cases h : e.1 = k
    · simp [assocSet, h, assocGet]
    · simp only [assocSet, h, if_false]
      simpa [assocGet, List.find?_cons, h] using ih

/-- Sanity: the fallback demo trace of /api/sync/run. -/
example :
    (DbJs.getRunWithLogsM "r1" 10
        (DbJs.finishRunM "r1" "success" (JVal.jobj []) 7
          (DbJs.addRunLogM "r1" "info" "step" JVal.jnull 3
            (DbJs.createRunM "r1" "demo.example" "manual" (JVal.jobj []) 1 emptyMem)))).2.map
      (·.message) = ["step"] := rfl

/-- A whole webhook-deduplication history: `markProcessed` applied to a list
of event ids, fallback mode. -/
def applyMarksM (ids : List String) (st : MemState) : MemState :=
  ids.foldl (fun s i => DbJs.markProcessedM i s) st

/-- A whole webhook-deduplication history in durable mode: each mark carries
its insertion timestamp. -/
def applyMarksP (rows : List (String × Nat)) (st : PgState) : PgState :=
  rows.foldl (fun s r => DbJs.markProcessedP r.1 r.2 s) st

theorem absent_applyMarksM (y : String) (ids : List String) (st : MemState)
    (hy : y ∉ ids) (hst : y ∉ st.processed) :
    y ∉ (applyMarksM ids st).processed := by
  induction ids generalizing st with
  | nil => exact hst
  | cons i rest ih =>
    have hyr : y ∉ rest := fun h => hy (List.mem_cons_of_mem _ h)
    have hyi : y ≠ i := fun h => hy (h ▸ List.mem_cons_self i rest)
    apply ih _ hyr
    unfold DbJs.markProcessedM
    by_cases h : i ∈ st.processed
    · simpa [h] using hst
    · simp only [h, if_false]
      intro hc
      rcases List.mem_append.mp hc with hc | hc
      · exact hst hc
      · exact hyi (List.mem_singleton.mp hc)

theorem absent_applyMarksP (y : String) (rows : List (String × Nat)) (st : PgState)
    (hy : y ∉ rows.map Prod.fst) (hst : ∀ r ∈ st.processed_events, r.1 ≠ y) :
    ∀ r ∈ (applyMarksP rows st).processed_events, r.1 ≠ y := by
  induction rows generalizing st with
  | nil => exact hst
  | cons e rest ih =>
    have hyr : y ∉ rest.map Prod.fst := fun h => hy (by simp [h])
    have hye : e.1 ≠ y := fun h => hy (by simp [h])
    apply ih _ hyr
    unfold DbJs.markProcessedP
    by_cases h : st.processed_events.any (fun r => r.1 == e.1)
    · simpa [h] using hst
    · simp only [h, if_false]
      intro r hr
      rcases List.mem_append.mp hr with hr | hr
      · exact hst r hr
      · have : r = (e.1, e.2) := List.mem_singleton.mp hr
        simpa [this] using hye

/-- The argument tuple of one addRunLog call: level, message, meta payload
and the clock reading observed by the call. -/
structure LogArg where
  level : String
  msg : String
  meta : JVal
  t : Nat

/-- The log entry the fallback store keeps for a call that passes the guard. -/
def LogArg.entry (a : LogArg) : LogEntry :=
  ⟨a.level, a.msg, a.meta, a.t⟩

/-- The run_logs row the durable store keeps for a call that passes the guard (meta is
stringified through `meta || {}`). -/
def LogArg.row (id : String) (a : LogArg) : PgLog :=
  ⟨id, a.level, a.msg, jsOrEmptyObj a.meta, a.t⟩

/-- The calls that survive the `if (!message) return;` guard. -/
def keptLogs (args : List LogArg) : List LogArg :=
  args.filter (fun a => !(a.msg == ""))

/-- The messages of the calls that pass the guard, in call order. -/
def keptMsgs (args : List LogArg) : List String :=
  (keptLogs args).map (·.msg)

/-- A sequence of addRunLog calls against the fallback store. -/
def appendLogsM (id : String) (args : List LogArg) (st : MemState) : MemState :=
  args.foldl (fun s a => DbJs.addRunLogM id a.level a.msg a.meta a.t s) st

/-- A sequence of addRunLog calls against the durable store. -/
def appendLogsP (id : String) (args : List LogArg) (st : PgState) : PgState :=
  args.foldl (fun s a => DbJs.addRunLogP id a.level a.msg a.meta a.t s) st

theorem addRunLogM_get_of_ne (id level msg : String) (meta : JVal) (t : Nat)
    (st : MemState) (h : msg ≠ "") :
    (assocGet id (DbJs.addRunLogM id level msg meta t st).runLogs).getD []
      = (assocGet id st.runLogs).getD [] ++ [⟨level, msg, meta, t⟩] := by
  simp [DbJs.addRunLogM, h, assocGet_assocSet_self]

theorem appendLogsM_get (id : String) (args : List LogArg) (stM : MemState) :
    (assocGet id (appendLogsM id args stM).runLogs).getD []
      = (assocGet id stM.runLogs).getD [] ++ (keptLogs args).map LogArg.entry := by
  induction args generalizing stM with
  | nil => simp [appendLogsM, keptLogs]
  | cons a rest ih =>
    have hstep : appendLogsM id (a :: rest) stM
        = appendLogsM id rest (DbJs.addRunLogM id a.level a.msg a.meta a.t stM) := rfl
    by_cases h : a.msg = ""
    · have hnoop : DbJs.addRunLogM id a.level a.msg a.meta a.t stM = stM := by
        simp [DbJs.addRunLogM, h]
      rw [hstep, hnoop, ih]
      simp [keptLogs, h]
    · rw [hstep, ih, addRunLogM_get_of_ne _ _ _ _ _ _ h]
      simp [keptLogs, h, LogArg.entry]

theorem appendLogsP_rows (id : String) (args : List LogArg) (stP : PgState) :
    (appendLogsP id args stP).run_logs
      = stP.run_logs ++ (keptLogs args).map (LogArg.row id) := by
  induction args generalizing stP with
  | nil => simp [appendLogsP, keptLogs]
  | cons a rest ih =>
    have hstep : appendLogsP id (a :: rest) stP
        = appendLogsP id rest (DbJs.addRunLogP id a.level a.msg a.meta a.t stP) := rfl
    by_cases h : a.msg = ""
    · have hnoop : DbJs.addRunLogP id a.level a.msg a.meta a.t stP = stP := by
        simp [DbJs.addRunLogP, h]
      rw [hstep, hnoop, ih]
      simp [keptLogs, h]
    · rw [hstep, ih]
      simp [DbJs.addRunLogP, h, keptLogs, LogArg.row]

/-- Variant of find?_updateFirst for a rewriting function that keeps matching
elements matching (not necessarily preserving the predicate on all inputs). -/
theorem find?_updateFirst_of (p : α → Bool) (f : α → α) (l : List α)
    (hf : ∀ a, p a = true → p (f a) = true) :
    List.find? p (updateFirst p f l) = (List.find? p l).map f := by
  induction l with
  | nil => rfl
  | cons a rest ih =>
    cases h : p a with
    | true => simp [updateFirst, h, List.find?_cons, hf a h]
    | false => simp [updateFirst, h, List.find?_cons, ih]

/-- C1: in the fallback mode of src/unnamed/part_001, `listRuns(tenantA)`
returns the newest runs of every tenant — its own durable branch filters by
shop_domain, but the in-memory branch is `memory.runs.slice(0, limit)`.
After creating a run for shop-a and then one for shop-b, listing shop-a's
runs returns shop-b's run first: the code contradicts the tenant-isolation
requirement the durable branch implements. -/
theorem c1_part001_fallback_leaks_other_tenant :
    (Part001.listRunsM "shop-a.myshopify.com" 30
        (Part001.createRunM 2 "shop-b.myshopify.com" "sync" 20
          (Part001.createRunM 1 "shop-a.myshopify.com" "sync" 10
            Part001.emptyMem001))).map (·.shop_domain)
      = ["shop-b.myshopify.com", "shop-a.myshopify.com"]
    ∧ "shop-b.myshopify.com" ≠ "shop-a.myshopify.com" :=
  ⟨rfl, by decide⟩

/-- C5: the dedup ledger is idempotent in both storage modes: marking an
event id twice leaves the store exactly as marking it once (the second call
is absorbed, not an error), `isProcessed` then reports true, and an id that
no history of marks ever contained reports false. -/
theorem c5_markProcessed_idempotent (stM : MemState) (stP : PgState)
    (x y : String) (tA tB : Nat) (hist : List (String × Nat))
    (hy : y ∉ hist.map Prod.fst) :
    DbJs.markProcessedM x (DbJs.markProcessedM x stM) = DbJs.markProcessedM x stM
    ∧ DbJs.isProcessedM x (DbJs.markProcessedM x stM) = true
    ∧ DbJs.markProcessedP x tB (DbJs.markProcessedP x tA stP) = DbJs.markProcessedP x tA stP
    ∧ DbJs.isProcessedP x (DbJs.markProcessedP x tA stP) = true
    ∧ DbJs.isProcessedM y (applyMarksM (hist.map Prod.fst) emptyMem) = false
    ∧ DbJs.isProcessedP y (applyMarksP hist emptyPg) = false := by
  have memM : x ∈ (DbJs.markProcessedM x stM).processed := by
    unfold DbJs.markProcessedM
    by_cases h : x ∈ stM.processed
    · simp [h]
    · simp [h]
  have memP : (DbJs.markProcessedP x tA stP).processed_events.any
      (fun r => r.1 == x) = true := by
    unfold DbJs.markProcessedP
    by_cases h : stP.processed_events.any (fun r => r.1 == x)
    · simp [h]
    · simp [h]
  refine ⟨?_, ?_, ?_, ?_, ?_, ?_⟩
  · conv_lhs => rw [DbJs.markProcessedM]
    exact if_pos memM
  · simpa [DbJs.isProcessedM] using memM
  · conv_lhs => rw [DbJs.markProcessedP]
    exact if_pos memP
  · simpa [DbJs.isProcessedP] using memP
  · have := absent_applyMarksM y (hist.map Prod.fst) emptyMem hy (by simp [emptyMem])
    simpa [DbJs.isProcessedM] using this
  · have := absent_applyMarksP y hist emptyPg hy (by simp [emptyPg])
    simp only [DbJs.isProcessedP]
    rw [List.any_eq_false]
    intro r hr
    simpa using this r hr

/-- C5 witness: a concrete history marking only evt-1; evt-1 is reported
processed after a duplicate mark and evt-2 is not. -/
theorem c5_markProcessed_idempotent_witness :
    DbJs.markProcessedM "evt-1" (DbJs.markProcessedM "evt-1" emptyMem)
        = DbJs.markProcessedM "evt-1" emptyMem
    ∧ DbJs.isProcessedM "evt-1" (DbJs.markProcessedM "evt-1" emptyMem) = true
    ∧ DbJs.markProcessedP "evt-1" 4 (DbJs.markProcessedP "evt-1" 3 emptyPg)
        = DbJs.markProcessedP "evt-1" 3 emptyPg
    ∧ DbJs.isProcessedP "evt-1" (DbJs.markProcessedP "evt-1" 3 emptyPg) = true
    ∧ DbJs.isProcessedM "evt-2" (applyMarksM ([("evt-1", 3)].map Prod.fst) emptyMem) = false
    ∧ DbJs.isProcessedP "evt-2" (applyMarksP [("evt-1", 3)] emptyPg) = false :=
  c5_markProcessed_idempotent emptyMem emptyPg "evt-1" "evt-2" 3 4 [("evt-1", 3)]
    (by decide)

/-- In part_000's durable finish, a truthy (hence non-null) summary argument
survives the COALESCE. -/
theorem coalesceJ_of_truthy (S old : JVal) (h : S.truthy = true) :
    Part000.coalesceJ S old = S := by
  cases S with
  | jnull => simp [JVal.truthy] at h
  | jbool b => rfl
  | jnum n => rfl
  | jstr s => rfl
  | jarr elems => rfl
  | jobj fields => rfl

/-- A truthy payload passes the `x || {}` guard unchanged. -/
theorem jsOrEmptyObj_of_truthy (S : JVal) (h : S.truthy = true) :
    jsOrEmptyObj S = S := by
  unfold jsOrEmptyObj
  rw [h]
  rfl

/-- C2 counterexample: finishing a run with the null summary stores the
empty object, not the supplied value — `run.summary = summary || {}` — so
"summary equals S" fails at S = null. -/
theorem c2_counterexample_null_summary :
    ((DbJs.getRunWithLogsM "r1" 10
        (DbJs.finishRunM "r1" "success" JVal.jnull 9
          (DbJs.createRunM "r1" "demo.example" "manual" (JVal.jobj []) 5
            emptyMem))).1).map (·.summary) = some (JVal.jobj [])
    ∧ JVal.jobj [] ≠ JVal.jnull :=
  ⟨rfl, fun h => JVal.noConfusion h⟩

/-- C2 amended: for every run and every truthy summary value S (one the
JavaScript `summary || {}` guard passes through: not null, false, 0 or ""),
after finishRun(id, "success", S) at a clock reading not before the run's
start, getRunWithLogs(id) returns a run with status "success", summary S,
and a non-null finished_at not earlier than started_at — in both storage
modes; a falsy S is stored as the empty object instead. -/
theorem c2_finish_success_amended (stM : MemState) (stP : PgState)
    (runId : String) (rM rP : Run)
    (hM : stM.runs.find? (fun r => r.id == runId) = some rM)
    (hP : stP.runs.find? (fun r => r.id == runId) = some rP)
    (S : JVal) (hS : S.truthy = true) (tf : Nat)
    (hMt : rM.started_at ≤ tf) (hPt : rP.started_at ≤ tf) (L : Nat) :
    (∃ r, (DbJs.getRunWithLogsM runId L
              (DbJs.finishRunM runId "success" S tf stM)).1 = some r
        ∧ r.status = "success" ∧ r.summary = S
        ∧ r.finished_at = some tf ∧ r.started_at ≤ tf)
    ∧ (∃ r, (DbJs.getRunWithLogsP runId L
              (DbJs.finishRunP runId "success" S tf stP)).1 = some r
        ∧ r.status = "success" ∧ r.summary = S
        ∧ r.finished_at = some tf ∧ r.started_at ≤ tf) := by
  constructor
  · refine ⟨{ rM with status := "success", summary := S, finished_at := some tf },
      ?_, rfl, rfl, rfl, hMt⟩
    simp only [DbJs.getRunWithLogsM, DbJs.finishRunM]
    rw [find?_updateFirst, hM]
    · simp [jsOrEmptyObj_of_truthy S hS]
    · exact fun a => rfl
  · refine ⟨{ rP with status := "success", summary := S, finished_at := some tf },
      ?_, rfl, rfl, rfl, hPt⟩
    simp only [DbJs.getRunWithLogsP, DbJs.finishRunP]
    rw [find?_updateWhere, hP]
    · simp [jsOrEmptyObj_of_truthy S hS]
    · exact fun a => rfl

/-- C2 witness: a concrete run created at time 5 and finished at time 9 with
a truthy object summary, in both modes. -/
theorem c2_finish_success_amended_witness :
    (∃ r, (DbJs.getRunWithLogsM "r1" 10
              (DbJs.finishRunM "r1" "success" (JVal.jobj [("done", JVal.jbool true)]) 9
                (DbJs.createRunM "r1" "demo.example" "manual" (JVal.jobj []) 5
                  emptyMem))).1 = some r
        ∧ r.status = "success" ∧ r.summary = JVal.jobj [("done", JVal.jbool true)]
        ∧ r.finished_at = some 9 ∧ r.started_at ≤ 9)
    ∧ (∃ r, (DbJs.getRunWithLogsP "r1" 10
              (DbJs.finishRunP "r1" "success" (JVal.jobj [("done", JVal.jbool true)]) 9
                (DbJs.createRunP "r1" "demo.example" "manual" (JVal.jobj []) 5
                  emptyPg))).1 = some r
        ∧ r.status = "success" ∧ r.summary = JVal.jobj [("done", JVal.jbool true)]
        ∧ r.finished_at = some 9 ∧ r.started_at ≤ 9) :=
  c2_finish_success_amended
    (DbJs.createRunM "r1" "demo.example" "manual" (JVal.jobj []) 5 emptyMem)
    (DbJs.createRunP "r1" "demo.example" "manual" (JVal.jobj []) 5 emptyPg)
    "r1"
    ⟨"r1", "demo.example", "manual", "running", JVal.jobj [], 5, none⟩
    ⟨"r1", "demo.example", "manual", "running", JVal.jobj [], 5, none⟩
    rfl rfl (JVal.jobj [("done", JVal.jbool true)]) rfl 9
    (by decide) (by decide) 10

/-- C3 counterexample: an existing link with status "published", upserted
with no status supplied, ends with status "linked" — the `status ||
"linked"` default makes the COALESCE always pick the excluded value, so the
stored status is overwritten, not preserved. -/
theorem c3_counterexample_status_not_preserved :
    (Links.getEbayLinkBySku "s1.myshopify.com" "SKU-1"
        (Links.upsertEbayLink "s1.myshopify.com" (some "P2") (some "V2") "SKU-1"
          none none none none
          [⟨"s1.myshopify.com", some "P1", some "V1", "SKU-1", some "O1", some "L1",
            "published", none⟩])).map (·.status) = some "linked"
    ∧ "linked" ≠ "published" :=
  ⟨rfl, by decide⟩

/-- C3 amended: for an existing (tenant, sku) link, upsertLink always
overwrites the product and variant ids; it overwrites the offer and listing
ids only when the caller supplies a truthy (non-null, non-empty) value and
preserves them otherwise; it always overwrites the status — with the
supplied value when truthy, else with the default "linked" (the stored
status is never preserved); and it always overwrites last_error, setting it
to null when the caller supplies none. -/
theorem c3_upsertLink_merge_amended (links : List EbayLink) (shop sku : String)
    (old : EbayLink)
    (hold : Links.getEbayLinkBySku shop sku links = some old)
    (productId variantId offerId listingId statusArg lastError : Option String) :
    Links.getEbayLinkBySku shop sku
        (Links.upsertEbayLink shop productId variantId sku offerId listingId
          statusArg lastError links)
      = some { old with
          shopify_product_id := productId,
          shopify_variant_id := variantId,
          ebay_offer_id := match jsOrNullStr offerId with
            | some v => some v
            | none => old.ebay_offer_id,
          ebay_listing_id := match jsOrNullStr listingId with
            | some v => some v
            | none => old.ebay_listing_id,
          status := jsOrDefaultStr "linked" statusArg,
          last_error := jsOrNullStr lastError } := by
  unfold Links.getEbayLinkBySku at hold ⊢
  have hmem : old ∈ links := List.mem_of_find?_eq_some hold
  have hp : (old.shop == shop && old.sku == sku) = true := by
    have := List.find?_some hold
    simpa using this
  have hany : links.any (fun l => l.shop == shop && l.sku == sku) = true :=
    List.any_eq_true.2 ⟨old, hmem, hp⟩
  simp only [Links.upsertEbayLink]
  rw [if_pos hany, find?_updateFirst, hold]
  · rfl
  · exact fun a => rfl

/-- C3 witness: a concrete existing link updated with a fresh offer id and
no listing id, status or error. -/
theorem c3_upsertLink_merge_amended_witness :
    Links.getEbayLinkBySku "s1.myshopify.com" "SKU-1"
        (Links.upsertEbayLink "s1.myshopify.com" (some "P2") (some "V2") "SKU-1"
          (some "O2") none none none
          [⟨"s1.myshopify.com", some "P1", some "V1", "SKU-1", some "O1", some "L1",
            "published", some "boom"⟩])
      = some ⟨"s1.myshopify.com", some "P2", some "V2", "SKU-1", some "O2", some "L1",
          "linked", none⟩ :=
  c3_upsertLink_merge_amended
    [⟨"s1.myshopify.com", some "P1", some "V1", "SKU-1", some "O1", some "L1",
      "published", some "boom"⟩]
    "s1.myshopify.com" "SKU-1"
    ⟨"s1.myshopify.com", some "P1", some "V1", "SKU-1", some "O1", some "L1",
      "published", some "boom"⟩
    rfl (some "P2") (some "V2") (some "O2") none none none

/-- C4 counterexample: in part_000's durable mode, finishing r1 with
summary "timeout" and then finishing again with a null summary leaves the
first summary in place (`summary = COALESCE($3, summary)`) — the second
call does not wholly overwrite the first. -/
theorem c4_counterexample_part000_summary_survives :
    ((Part000.finishRunP "r1" "success" JVal.jnull 9
        (Part000.finishRunP "r1" "error" (JVal.jobj [("reason", JVal.jstr "timeout")]) 5
          ⟨[], [], [⟨"r1", "demo.example", "manual", "running", JVal.jobj [], 1, none⟩],
            []⟩)).runs.find? (fun r => r.id == "r1")).map (·.summary)
      = some (JVal.jobj [("reason", JVal.jstr "timeout")])
    ∧ JVal.jobj [("reason", JVal.jstr "timeout")] ≠ JVal.jnull :=
  ⟨rfl, fun h => JVal.noConfusion h⟩

/-- C4 amended: a second finishRun on the same run succeeds and overwrites
the first call's status and finished_at unconditionally, and its summary
whenever the second call supplies a truthy (non-null) summary S2 — in
src/db.js (both modes) and src/unnamed/part_000 (both modes).  When S2 is
falsy the variants differ: db.js stores the empty object, part_000's
fallback stores the value verbatim, and part_000's durable mode preserves
the first call's summary. -/
theorem c4_double_finish_amended (stM : MemState) (stP : PgState)
    (runId : String) (rM rP : Run)
    (hM : stM.runs.find? (fun r => r.id == runId) = some rM)
    (hP : stP.runs.find? (fun r => r.id == runId) = some rP)
    (s1 s2 : String) (S1 S2 : JVal) (hS2 : S2.truthy = true) (t1 t2 : Nat) :
    (∃ r, (DbJs.finishRunM runId s2 S2 t2
              (DbJs.finishRunM runId s1 S1 t1 stM)).runs.find?
            (fun r => r.id == runId) = some r
        ∧ r.status = s2 ∧ r.summary = S2 ∧ r.finished_at = some t2)
    ∧ (∃ r, (DbJs.finishRunP runId s2 S2 t2
              (DbJs.finishRunP runId s1 S1 t1 stP)).runs.find?
            (fun r => r.id == runId) = some r
        ∧ r.status = s2 ∧ r.summary = S2 ∧ r.finished_at = some t2)
    ∧ (∃ r, (Part000.finishRunM runId s2 S2 t2
              (Part000.finishRunM runId s1 S1 t1 stM)).runs.find?
            (fun r => r.id == runId) = some r
        ∧ r.status = s2 ∧ r.summary = S2 ∧ r.finished_at = some t2)
    ∧ (∃ r, (Part000.finishRunP runId s2 S2 t2
              (Part000.finishRunP runId s1 S1 t1 stP)).runs.find?
            (fun r => r.id == runId) = some r
        ∧ r.status = s2 ∧ r.summary = S2 ∧ r.finished_at = some t2) := by
  refine ⟨?_, ?_, ?_, ?_⟩
  · refine ⟨{ rM with status := s2, summary := S2, finished_at := some t2 },
      ?_, rfl, rfl, rfl⟩
    simp only [DbJs.finishRunM]
    rw [find?_updateFirst, find?_updateFirst, hM]
    · simp [jsOrEmptyObj_of_truthy S2 hS2]
    · exact fun a => rfl
    · exact fun a => rfl
  · refine ⟨{ rP with status := s2, summary := S2, finished_at := some t2 },
      ?_, rfl, rfl, rfl⟩
    simp only [DbJs.finishRunP]
    rw [find?_updateWhere, find?_updateWhere, hP]
    · simp [jsOrEmptyObj_of_truthy S2 hS2]
    · exact fun a => rfl
    · exact fun a => rfl
  · refine ⟨{ rM with status := s2, summary := S2, finished_at := some t2 },
      ?_, rfl, rfl, rfl⟩
    simp only [Part000.finishRunM]
    rw [find?_updateFirst, find?_updateFirst, hM]
    · simp
    · exact fun a => rfl
    · exact fun a => rfl
  · refine ⟨{ rP with status := s2, summary := S2, finished_at := some t2 },
      ?_, rfl, rfl, rfl⟩
    have hc : ∀ old, Part000.coalesceJ S2 old = S2 :=
      fun old => coalesceJ_of_truthy S2 old hS2
    simp only [Part000.finishRunP]
    rw [find?_updateWhere, find?_updateWhere, hP]
    · simp [hc]
    · exact fun a => rfl
    · exact fun a => rfl

/-- C4 witness: a concrete double finish — error then success — with a
truthy second summary, across all four finishRun variants. -/
theorem c4_double_finish_amended_witness :
    (∃ r, (DbJs.finishRunM "r1" "success" (JVal.jobj [("ok", JVal.jbool true)]) 9
              (DbJs.finishRunM "r1" "error" (JVal.jobj []) 5
                ⟨[], [], [⟨"r1", "demo.example", "manual", "running", JVal.jobj [], 1,
                  none⟩], []⟩)).runs.find? (fun r => r.id == "r1") = some r
        ∧ r.status = "success" ∧ r.summary = JVal.jobj [("ok", JVal.jbool true)]
        ∧ r.finished_at = some 9)
    ∧ (∃ r, (DbJs.finishRunP "r1" "success" (JVal.jobj [("ok", JVal.jbool true)]) 9
              (DbJs.finishRunP "r1" "error" (JVal.jobj []) 5
                ⟨[], [], [⟨"r1", "demo.example", "manual", "running", JVal.jobj [], 1,
                  none⟩], []⟩)).runs.find? (fun r => r.id == "r1") = some r
        ∧ r.status = "success" ∧ r.summary = JVal.jobj [("ok", JVal.jbool true)]
        ∧ r.finished_at = some 9)
    ∧ (∃ r, (Part000.finishRunM "r1" "success" (JVal.jobj [("ok", JVal.jbool true)]) 9
              (Part000.finishRunM "r1" "error" (JVal.jobj []) 5
                ⟨[], [], [⟨"r1", "demo.example", "manual", "running", JVal.jobj [], 1,
                  none⟩], []⟩)).runs.find? (fun r => r.id == "r1") = some r
        ∧ r.status = "success" ∧ r.summary = JVal.jobj [("ok", JVal.jbool true)]
        ∧ r.finished_at = some 9)
    ∧ (∃ r, (Part000.finishRunP "r1" "success" (JVal.jobj [("ok", JVal.jbool true)]) 9
              (Part000.finishRunP "r1" "error" (JVal.jobj []) 5
                ⟨[], [], [⟨"r1", "demo.example", "manual", "running", JVal.jobj [], 1,
                  none⟩], []⟩)).runs.find? (fun r => r.id == "r1") = some r
        ∧ r.status = "success" ∧ r.summary = JVal.jobj [("ok", JVal.jbool true)]
        ∧ r.finished_at = some 9) :=
  c4_double_finish_amended
    ⟨[], [], [⟨"r1", "demo.example", "manual", "running", JVal.jobj [], 1, none⟩], []⟩
    ⟨[], [], [⟨"r1", "demo.example", "manual", "running", JVal.jobj [], 1, none⟩], []⟩
    "r1"
    ⟨"r1", "demo.example", "manual", "running", JVal.jobj [], 1, none⟩
    ⟨"r1", "demo.example", "manual", "running", JVal.jobj [], 1, none⟩
    rfl rfl "error" "success" (JVal.jobj []) (JVal.jobj [("ok", JVal.jbool true)])
    rfl 5 9

/-- C6: log entries come back in append order: appending messages A, B, C in
sequence (non-empty messages, at non-decreasing clock readings) to a run
with no prior log entries, then fetching with a log limit of at least 3,
yields exactly those three messages in that order — in both storage modes. -/
theorem c6_log_order (stM : MemState) (stP : PgState) (id : String)
    (hM : (assocGet id stM.runLogs).getD [] = [])
    (hP : stP.run_logs.filter (fun l => l.run_id == id) = [])
    (lv1 lv2 lv3 m1 m2 m3 : String) (mA mB mC : JVal) (t1 t2 t3 : Nat)
    (h1 : m1 ≠ "") (h2 : m2 ≠ "") (h3 : m3 ≠ "")
    (h12 : t1 ≤ t2) (h23 : t2 ≤ t3) (L : Nat) (hL : 3 ≤ L) :
    (DbJs.getRunWithLogsM id L
        (DbJs.addRunLogM id lv3 m3 mC t3
          (DbJs.addRunLogM id lv2 m2 mB t2
            (DbJs.addRunLogM id lv1 m1 mA t1 stM)))).2.map (·.message)
      = [m1, m2, m3]
    ∧ (DbJs.getRunWithLogsP id L
        (DbJs.addRunLogP id lv3 m3 mC t3
          (DbJs.addRunLogP id lv2 m2 mB t2
            (DbJs.addRunLogP id lv1 m1 mA t1 stP)))).2.map (·.message)
      = [m1, m2, m3] := by
  have hL0 : ¬ (L = 0) := by omega
  have hsub : 3 - L = 0 := Nat.sub_eq_zero_of_le hL
  constructor
  · have hlogs : (assocGet id
        (DbJs.addRunLogM id lv3 m3 mC t3
          (DbJs.addRunLogM id lv2 m2 mB t2
            (DbJs.addRunLogM id lv1 m1 mA t1 stM))).runLogs).getD []
        = [⟨lv1, m1, mA, t1⟩, ⟨lv2, m2, mB, t2⟩, ⟨lv3, m3, mC, t3⟩] := by
      rw [addRunLogM_get_of_ne _ _ _ _ _ _ h3, addRunLogM_get_of_ne _ _ _ _ _ _ h2,
        addRunLogM_get_of_ne _ _ _ _ _ _ h1, hM]
      rfl
    simp [DbJs.getRunWithLogsM, hlogs, jsSliceNeg, hL0, hsub]
  · have hrows : (DbJs.addRunLogP id lv3 m3 mC t3
        (DbJs.addRunLogP id lv2 m2 mB t2
          (DbJs.addRunLogP id lv1 m1 mA t1 stP))).run_logs
        = stP.run_logs ++ [⟨id, lv1, m1, jsOrEmptyObj mA, t1⟩,
            ⟨id, lv2, m2, jsOrEmptyObj mB, t2⟩, ⟨id, lv3, m3, jsOrEmptyObj mC, t3⟩] := by
      simp [DbJs.addRunLogP, h1, h2, h3]
    have hfilt : (DbJs.addRunLogP id lv3 m3 mC t3
        (DbJs.addRunLogP id lv2 m2 mB t2
          (DbJs.addRunLogP id lv1 m1 mA t1 stP))).run_logs.filter
            (fun l => l.run_id == id)
        = [⟨id, lv1, m1, jsOrEmptyObj mA, t1⟩, ⟨id, lv2, m2, jsOrEmptyObj mB, t2⟩,
            ⟨id, lv3, m3, jsOrEmptyObj mC, t3⟩] := by
      rw [hrows, List.filter_append, hP]
      simp
    have hsort : List.Sorted (fun (a b : PgLog) => a.created_at ≤ b.created_at)
        [⟨id, lv1, m1, jsOrEmptyObj mA, t1⟩, ⟨id, lv2, m2, jsOrEmptyObj mB, t2⟩,
          ⟨id, lv3, m3, jsOrEmptyObj mC, t3⟩] := by
      simp [List.sorted_cons]
      refine ⟨⟨h12, le_trans h12 h23⟩, h23⟩
    simp only [DbJs.getRunWithLogsP]
    rw [hfilt, List.Sorted.insertionSort_eq hsort,
      List.take_of_length_le (by simpa using hL)]
    rfl

/-- C6 witness: messages A, B, C appended at times 1, 2, 3 to the fresh run
r1 on empty stores, fetched with limit 10, in both modes. -/
theorem c6_log_order_witness :
    (DbJs.getRunWithLogsM "r1" 10
        (DbJs.addRunLogM "r1" "info" "C" JVal.jnull 3
          (DbJs.addRunLogM "r1" "info" "B" JVal.jnull 2
            (DbJs.addRunLogM "r1" "info" "A" JVal.jnull 1 emptyMem)))).2.map (·.message)
      = ["A", "B", "C"]
    ∧ (DbJs.getRunWithLogsP "r1" 10
        (DbJs.addRunLogP "r1" "info" "C" JVal.jnull 3
          (DbJs.addRunLogP "r1" "info" "B" JVal.jnull 2
            (DbJs.addRunLogP "r1" "info" "A" JVal.jnull 1 emptyPg)))).2.map (·.message)
      = ["A", "B", "C"] :=
  c6_log_order emptyMem emptyPg "r1" rfl rfl "info" "info" "info" "A" "B" "C"
    JVal.jnull JVal.jnull JVal.jnull 1 2 3 (by decide) (by decide) (by decide)
    (by decide) (by decide) 10 (by decide)

/-- C8 counterexample: in the startup IIFE of src/app.js a failing durable
initialisation is caught and logged, and the server listens anyway — the
process does not exit. -/
theorem c8_counterexample_main_startup_continues :
    Startup.startupMainVariant (Except.error "connection refused")
        = Startup.StartOutcome.listens
    ∧ Startup.StartOutcome.listens ≠ Startup.StartOutcome.exits :=
  ⟨rfl, by decide⟩

/-- C8 amended: only the variant that chains `initDb().catch(e =>
process.exit(1))` aborts startup when the configured durable backend fails
to initialise; the main startup IIFE of src/app.js catches the error and
serves requests anyway. -/
theorem c8_startup_abort_amended (e : String) :
    Startup.startupChainedVariant (Except.error e) = Startup.StartOutcome.exits
    ∧ Startup.startupMainVariant (Except.error e) = Startup.StartOutcome.listens :=
  ⟨rfl, rfl⟩

/-- C7 counterexample: a run with three logged messages A, B, C fetched
with log limit 2 — the fallback mode returns the last two (B, C) while the
durable mode returns the first two (A, B): the two storage modes disagree
when a run has more entries than the limit. -/
theorem c7_counterexample_log_selection_differs :
    (DbJs.getRunWithLogsM "r1" 2
        (appendLogsM "r1" [⟨"info", "A", JVal.jnull, 1⟩, ⟨"info", "B", JVal.jnull, 2⟩,
          ⟨"info", "C", JVal.jnull, 3⟩] emptyMem)).2.map (·.message) = ["B", "C"]
    ∧ (DbJs.getRunWithLogsP "r1" 2
        (appendLogsP "r1" [⟨"info", "A", JVal.jnull, 1⟩, ⟨"info", "B", JVal.jnull, 2⟩,
          ⟨"info", "C", JVal.jnull, 3⟩] emptyPg)).2.map (·.message) = ["A", "B"]
    ∧ (["B", "C"] : List String) ≠ ["A", "B"] :=
  ⟨rfl, rfl, by decide⟩

/-- C7 amended: setToken followed by getToken returns the stored (non-empty)
secret in both storage modes, and getRunWithLogs returns the same log
selection (by message) in both modes whenever the run has at most N
stored entries; when it has more than a positive limit N, the fallback
mode returns the most recent N entries (still in ascending order) while the
durable mode returns the oldest N. -/
theorem c7_backend_parity_amended (stM : MemState) (stP : PgState)
    (shop tok : String) (now : Nat) (htok : tok ≠ "")
    (id : String) (args : List LogArg) (L : Nat)
    (hM : (assocGet id stM.runLogs).getD [] = [])
    (hP : stP.run_logs.filter (fun l => l.run_id == id) = [])
    (hchron : List.Pairwise (fun a b => a.t ≤ b.t) args) :
    DbJs.getShopTokenM shop (DbJs.upsertShopTokenM shop tok stM) = some tok
    ∧ DbJs.getShopTokenP shop (DbJs.upsertShopTokenP shop tok now stP) = some tok
    ∧ (0 < L →
        (DbJs.getRunWithLogsM id L (appendLogsM id args stM)).2.map (·.message)
            = takeLast L (keptMsgs args)
          ∧ (DbJs.getRunWithLogsP id L (appendLogsP id args stP)).2.map (·.message)
            = (keptMsgs args).take L)
    ∧ ((keptMsgs args).length ≤ L →
        (DbJs.getRunWithLogsM id L (appendLogsM id args stM)).2.map (·.message)
          = (DbJs.getRunWithLogsP id L (appendLogsP id args stP)).2.map (·.message)) := by
  have hMget : (assocGet id (appendLogsM id args stM).runLogs).getD []
      = (keptLogs args).map LogArg.entry := by
    rw [appendLogsM_get, hM, List.nil_append]
  have hentrymsg : ((keptLogs args).map LogArg.entry).map (·.message)
      = keptMsgs args := by
    rw [List.map_map]
    rfl
  have hlenE : ((keptLogs args).map LogArg.entry).length = (keptMsgs args).length := by
    simp [keptMsgs]
  have hPfilt : (appendLogsP id args stP).run_logs.filter (fun l => l.run_id == id)
      = (keptLogs args).map (LogArg.row id) := by
    rw [appendLogsP_rows, List.filter_append, hP, List.nil_append]
    apply List.filter_eq_self.2
    intro a ha
    obtain ⟨b, hb, rfl⟩ := List.mem_map.1 ha
    simp [LogArg.row]
  have hPsorted : List.Sorted (fun (a b : PgLog) => a.created_at ≤ b.created_at)
      ((keptLogs args).map (LogArg.row id)) := by
    have hk : List.Pairwise (fun (a b : LogArg) => a.t ≤ b.t) (keptLogs args) :=
      List.Pairwise.sublist (List.filter_sublist args) hchron
    unfold List.Sorted
    rw [List.pairwise_map]
    exact hk
  have hPfull : (DbJs.getRunWithLogsP id L (appendLogsP id args stP)).2
      = (((keptLogs args).map (LogArg.row id)).take L).map
          (fun l => ⟨l.level, l.message, l.meta, l.created_at⟩) := by
    simp only [DbJs.getRunWithLogsP]
    rw [hPfilt, List.Sorted.insertionSort_eq hPsorted]
  have hPmsg : (DbJs.getRunWithLogsP id L (appendLogsP id args stP)).2.map (·.message)
      = (keptMsgs args).take L := by
    rw [hPfull, List.map_map, List.map_take, List.map_map]
    rfl
  have hmain : 0 < L →
      (DbJs.getRunWithLogsM id L (appendLogsM id args stM)).2.map (·.message)
          = takeLast L (keptMsgs args)
        ∧ (DbJs.getRunWithLogsP id L (appendLogsP id args stP)).2.map (·.message)
          = (keptMsgs args).take L := by
    intro hLpos
    refine ⟨?_, hPmsg⟩
    simp only [DbJs.getRunWithLogsM, hMget]
    unfold jsSliceNeg takeLast
    rw [if_neg (by omega : ¬ L = 0), List.map_drop, hentrymsg, hlenE]
  refine ⟨?_, ?_, hmain, ?_⟩
  · simp [DbJs.getShopTokenM, DbJs.upsertShopTokenM, assocGet_assocSet_self,
      jsOrNullStr, htok]
  · by_cases hany : stP.shop_tokens.any (fun r => r.1 == shop) = true
    · simp only [DbJs.getShopTokenP, DbJs.upsertShopTokenP, if_pos hany]
      obtain ⟨a0, hmem0, hpa0⟩ := List.any_eq_true.1 hany
      have hsome : (stP.shop_tokens.find? (fun r => r.1 == shop)).isSome :=
        List.find?_isSome.2 ⟨a0, hmem0, hpa0⟩
      obtain ⟨a1, ha1⟩ := Option.isSome_iff_exists.1 hsome
      rw [find?_updateFirst_of _ _ _ (fun a _ => by simp), ha1]
      simp [jsOrNullStr, htok]
    · simp only [DbJs.getShopTokenP, DbJs.upsertShopTokenP, if_neg hany]
      rw [Bool.not_eq_true] at hany
      have hnone : stP.shop_tokens.find? (fun r => r.1 == shop) = none :=
        List.find?_eq_none.2 (List.any_eq_false.1 hany)
      rw [List.find?_append, hnone]
      simp [jsOrNullStr, htok]
  · intro hlen
    by_cases hL0 : L = 0
    · subst hL0
      have hmsgs : keptMsgs args = [] :=
        List.eq_nil_of_length_eq_zero (Nat.le_zero.1 hlen)
      have hkl : keptLogs args = [] := by
        have := hmsgs
        unfold keptMsgs at this
        exact List.map_eq_nil_iff.1 this
      simp [DbJs.getRunWithLogsM, hMget, hPmsg, hkl, hmsgs, jsSliceNeg]
    · obtain ⟨hMeq, hPeq⟩ := hmain (Nat.pos_of_ne_zero hL0)
      rw [hMeq, hPeq, List.take_of_length_le hlen]
      unfold takeLast
      rw [Nat.sub_eq_zero_of_le hlen, List.drop_zero]

/-- C7 witness: token t1 stored and read back for shop-a in both modes, and
one stored log entry fetched with limit 1 giving the same selection. -/
theorem c7_backend_parity_amended_witness :
    DbJs.getShopTokenM "shop-a" (DbJs.upsertShopTokenM "shop-a" "t1" emptyMem) = some "t1"
    ∧ DbJs.getShopTokenP "shop-a" (DbJs.upsertShopTokenP "shop-a" "t1" 0 emptyPg) = some "t1"
    ∧ (0 < 1 →
        (DbJs.getRunWithLogsM "r1" 1
            (appendLogsM "r1" [⟨"info", "A", JVal.jnull, 1⟩] emptyMem)).2.map (·.message)
            = takeLast 1 (keptMsgs [⟨"info", "A", JVal.jnull, 1⟩])
          ∧ (DbJs.getRunWithLogsP "r1" 1
            (appendLogsP "r1" [⟨"info", "A", JVal.jnull, 1⟩] emptyPg)).2.map (·.message)
            = (keptMsgs [⟨"info", "A", JVal.jnull, 1⟩]).take 1)
    ∧ ((keptMsgs [⟨"info", "A", JVal.jnull, 1⟩]).length ≤ 1 →
        (DbJs.getRunWithLogsM "r1" 1
            (appendLogsM "r1" [⟨"info", "A", JVal.jnull, 1⟩] emptyMem)).2.map (·.message)
          = (DbJs.getRunWithLogsP "r1" 1
            (appendLogsP "r1" [⟨"info", "A", JVal.jnull, 1⟩] emptyPg)).2.map (·.message)) :=
  c7_backend_parity_amended emptyMem emptyPg "shop-a" "t1" 0 (by decide)
    "r1" [⟨"info", "A", JVal.jnull, 1⟩] 1 rfl rfl (by simp)

/-- C9: for every run id, level and metadata, calling addLog with an empty
message is a silent no-op in both storage modes: the whole store — the
run's log list included — is unchanged and nothing is raised. -/
theorem c9_addLog_empty_message_noop (stM : MemState) (stP : PgState)
    (runId level : String) (meta : JVal) (now : Nat) :
    DbJs.addRunLogM runId level "" meta now stM = stM
    ∧ DbJs.addRunLogP runId level "" meta now stP = stP :=
  ⟨by simp [DbJs.addRunLogM], by simp [DbJs.addRunLogP]⟩

/-- C10: calling finishRun with a run id for which no run exists is a silent
no-op in src/db.js and in src/unnamed/part_000, in both storage modes: every
stored run, log list, token and processed-event entry is unchanged. -/
theorem c10_finishRun_missing_run_noop (stM : MemState) (stP : PgState)
    (runId status : String) (summary : JVal) (now : Nat)
    (hM : stM.runs.find? (fun r => r.id == runId) = none)
    (hP : stP.runs.find? (fun r => r.id == runId) = none) :
    DbJs.finishRunM runId status summary now stM = stM
    ∧ DbJs.finishRunP runId status summary now stP = stP
    ∧ Part000.finishRunM runId status summary now stM = stM
    ∧ Part000.finishRunP runId status summary now stP = stP := by
  have hM' : ∀ r ∈ stM.runs, (r.id == runId) = false := by
    intro r hr
    simpa using List.find?_eq_none.mp hM r hr
  have hP' : ∀ r ∈ stP.runs, (r.id == runId) = false := by
    intro r hr
    simpa using List.find?_eq_none.mp hP r hr
  exact ⟨by rw [DbJs.finishRunM, updateFirst_eq_self _ _ _ hM'],
         by rw [DbJs.finishRunP, updateWhere_eq_self _ _ _ hP'],
         by rw [Part000.finishRunM, updateFirst_eq_self _ _ _ hM'],
         by rw [Part000.finishRunP, updateWhere_eq_self _ _ _ hP']⟩

/-- C10 witness: finishing the unknown run r1 on empty stores changes
nothing. -/
theorem c10_finishRun_missing_run_noop_witness :
    DbJs.finishRunM "r1" "success" JVal.jnull 5 emptyMem = emptyMem
    ∧ DbJs.finishRunP "r1" "success" JVal.jnull 5 emptyPg = emptyPg
    ∧ Part000.finishRunM "r1" "success" JVal.jnull 5 emptyMem = emptyMem
    ∧ Part000.finishRunP "r1" "success" JVal.jnull 5 emptyPg = emptyPg :=
  c10_finishRun_missing_run_noop emptyMem emptyPg "r1" "success" JVal.jnull 5 rfl rfl
